import Mathlib

/-!
Verification of the gemsuite-mcp rate-limit/retry controller and model-selection
policy.  The definitions below are a shallow embedding of the TypeScript source:

* `MODELS` embeds the model registry of `src/config/models.ts`;
* `canMakeRequest`, `recordRequest`, `getTimeUntilNextSlot`, `calculateBackoff`
  and `executeWithRetry` embed the `RateLimitManager` class
  (`src/utils/rate-limiter.ts`); the mutable `requestTimestamps` map becomes an
  explicit `RateState` value threaded through each operation, and `Date.now()`
  becomes an explicit integer clock argument;
* `getMimeType`, `getFileTypeCategory` embed `src/utils/file-handler.ts`, and
  `getModelForFile`, `getModelForTask`, `selectModel` embed
  `src/utils/model-selector.ts`.
-/

/-! ## Model registry (src/config/models.ts) -/

structure ModelCapabilities where
  search : Bool
  thinking : Bool
  multimodal : Bool
  fastResponse : Bool
deriving DecidableEq, Repr

structure GeminiModel where
  id : String
  displayName : String
  contextWindow : Nat
  maxOutputTokens : Nat
  freeRpm : Nat
  capabilities : ModelCapabilities
  useCases : List String
deriving DecidableEq, Repr

def FLASH_ID : String := "gemini-2.0-flash-001"

def FLASH_LITE_ID : String := "gemini-2.0-flash-lite-001"

def FLASH_THINKING_ID : String := "gemini-2.0-flash-thinking-exp-01-21"

def flashModel : GeminiModel where
  id := FLASH_ID
  displayName := "Gemini 2.0 Flash"
  contextWindow := 1000000
  maxOutputTokens := 8192
  freeRpm := 15
  capabilities := { search := true, thinking := false, multimodal := true, fastResponse := false }
  useCases := ["General knowledge questions", "Information retrieval with search",
    "Processing multimodal inputs", "Balanced performance and speed"]

def flashLiteModel : GeminiModel where
  id := FLASH_LITE_ID
  displayName := "Gemini 2.0 Flash-Lite"
  contextWindow := 1000000
  maxOutputTokens := 8192
  freeRpm := 15
  capabilities := { search := false, thinking := false, multimodal := true, fastResponse := true }
  useCases := ["High-volume text processing", "Rapid file analysis",
    "Cost-efficient processing", "Speed-critical applications"]

def flashThinkingModel : GeminiModel where
  id := FLASH_THINKING_ID
  displayName := "Gemini 2.0 Flash Thinking Experimental"
  contextWindow := 128000
  maxOutputTokens := 64000
  freeRpm := 10
  capabilities := { search := false, thinking := false, multimodal := true, fastResponse := false }
  useCases := ["Complex reasoning tasks", "Math and science problems",
    "Coding challenges", "Step-by-step problem solving"]

/-- The `MODELS` record of `src/config/models.ts`, as a lookup function
(JavaScript `MODELS[modelId]` returning `undefined` becomes `none`). -/
def MODELS (modelId : String) : Option GeminiModel :=
  if modelId = FLASH_ID then some flashModel
  else if modelId = FLASH_LITE_ID then some flashLiteModel
  else if modelId = FLASH_THINKING_ID then some flashThinkingModel
  else none

/-! ## Rate limiter state (src/utils/rate-limiter.ts)

`requestTimestamps : Map<string, number[]>` becomes a function from model id to
an optional list of timestamps (`none` = the map has no entry for that key). -/

def RateState : Type := String → Option (List Int)

def RateState.empty : RateState := fun _ => none

/-- `this.requestTimestamps.set(modelId, ts)` -/
def RateState.set (st : RateState) (modelId : String) (ts : List Int) : RateState :=
  fun x => if x = modelId then some ts else st x

def ONE_MINUTE_MS : Int := 60 * 1000

/-- `RateLimitManager.canMakeRequest`.  `Date.now()` is the explicit `now`
argument; the pruning write-back to the timestamps map makes the result a pair
of the boolean verdict and the updated state. -/
def canMakeRequest (st : RateState) (modelId : String) (now : Int) : Bool × RateState :=
  match MODELS modelId with
  | none => (false, st)
  | some model =>
    let rpm := model.freeRpm
    match st modelId with
    | none => (true, st.set modelId [])
    | some timestamps =>
      let oneMinuteAgo := now - ONE_MINUTE_MS
      let recentTimestamps := timestamps.filter (fun t => oneMinuteAgo ≤ t)
      (decide (recentTimestamps.length < rpm), st.set modelId recentTimestamps)

/-- `RateLimitManager.recordRequest` (pushes `Date.now()` onto the model's
timestamp array, creating it when absent). -/
def recordRequest (st : RateState) (modelId : String) (now : Int) : RateState :=
  let timestamps := (st modelId).getD []
  st.set modelId (timestamps ++ [now])

/-- `RateLimitManager.getTimeUntilNextSlot`.  The in-place
`timestamps.sort((a, b) => a - b)` is modelled by `List.insertionSort (· ≤ ·)`
(any comparison sort of integers yields the same, unique, sorted list) together
with the corresponding state write-back. -/
def getTimeUntilNextSlot (st : RateState) (modelId : String) (now : Int) : Int × RateState :=
  let p := canMakeRequest st modelId now
  if p.1 then (0, p.2)
  else
    match MODELS modelId with
    | none => (60000, p.2)
    | some model =>
      let rpm := model.freeRpm
      let timestamps := (p.2 modelId).getD []
      if timestamps.length < rpm then (0, p.2)
      else
        let sorted := List.insertionSort (· ≤ ·) timestamps
        let oldestTimestamp := sorted.getD (sorted.length - rpm) 0
        let expiryTime := oldestTimestamp + 60000
        (max 0 (expiryTime - now), p.2.set modelId sorted)

/-- The recorded timestamps for `modelId` lying in the trailing 60-second
window ending at `now` (the list kept by the pruning in `canMakeRequest`). -/
def prunedWindow (st : RateState) (modelId : String) (now : Int) : List Int :=
  ((st modelId).getD []).filter (fun t => now - ONE_MINUTE_MS ≤ t)

/-- Number of recorded timestamps for `modelId` lying in the trailing
60-second window ending at `now`. -/
def windowCount (st : RateState) (modelId : String) (now : Int) : Nat :=
  (prunedWindow st modelId now).length

/-- The timestamp `getTimeUntilNextSlot` bases its wait computation on: entry
`length - rpm` of the sorted pruned window ("the oldest relevant in-window
timestamp" — the oldest one when the window holds exactly `rpm` entries). -/
def oldestRelevant (st : RateState) (modelId : String) (now : Int) (rpm : Nat) : Int :=
  let sorted := List.insertionSort (· ≤ ·) (prunedWindow st modelId now)
  sorted.getD (sorted.length - rpm) 0

/-! ### Registry facts -/

theorem MODELS_freeRpm_pos {m : String} {md : GeminiModel} (h : MODELS m = some md) :
    0 < md.freeRpm := by
  unfold MODELS at h
  split_ifs at h
  · injection h with h2; subst h2; decide
  · injection h with h2; subst h2; decide
  · injection h with h2; subst h2; decide

theorem length_filter_lt_iff {p : Int → Bool} (l : List Int) :
    (l.filter p).length < l.length ↔ ∃ x ∈ l, ¬ p x := by
  induction l with
  | nil => simp
  | cons a l ih =>
    by_cases hpa : p a
    · simpa [hpa, Nat.succ_lt_succ_iff] using ih
    · simp only [List.filter_cons, hpa]
      constructor
      · intro _
        exact ⟨a, List.mem_cons_self a l, by simp [hpa]⟩
      · intro _
        simpa using Nat.lt_succ_of_le (List.length_filter_le p l)

/-- **C1.** Admission control: for a registered model the verdict of
`canMakeRequest` is `true` exactly when the count of recorded timestamps in the
trailing 60-second window is strictly below the model's `freeRpm` quota; for an
unregistered identifier it is `false` (fail closed); and when a window holds
exactly `freeRpm` timestamps, admission at a later instant `now'` is possible
exactly when the oldest of those timestamps has aged past 60 seconds. -/
theorem canMakeRequest_spec :
    (∀ (st : RateState) (m : String) (now : Int), MODELS m = none →
      (canMakeRequest st m now).1 = false) ∧
    (∀ (st : RateState) (m : String) (md : GeminiModel) (now : Int), MODELS m = some md →
      ((canMakeRequest st m now).1 = true ↔ windowCount st m now < md.freeRpm)) ∧
    (∀ (st : RateState) (m : String) (md : GeminiModel) (ts : List Int) (tmin : Int),
      MODELS m = some md → st m = some ts → ts.length = md.freeRpm →
      tmin ∈ ts → (∀ x ∈ ts, tmin ≤ x) →
      ∀ now' : Int, ((canMakeRequest st m now').1 = true ↔ tmin + ONE_MINUTE_MS < now')) := by
  refine ⟨?_, ?_, ?_⟩
  · intro st m now h
    simp [canMakeRequest, h]
  · intro st m md now h
    cases hst : st m with
    | none =>
      have hpos := MODELS_freeRpm_pos h
      simp [canMakeRequest, h, hst, windowCount, prunedWindow, hpos]
    | some ts =>
      simp [canMakeRequest, h, hst, windowCount, prunedWindow]
  · intro st m md ts tmin h hst hlen hmem hmin now'
    have hiff := (length_filter_lt_iff (p := fun t => now' - ONE_MINUTE_MS ≤ t) ts)
    simp only [canMakeRequest, h, hst, decide_eq_true_eq]
    rw [← hlen, hiff]
    constructor
    · rintro ⟨x, hx, hnx⟩
      have h1 : tmin ≤ x := hmin x hx
      have h2 : x < now' - ONE_MINUTE_MS := by
        simpa using lt_of_not_le (by simpa using hnx)
      omega
    · intro hlt
      exact ⟨tmin, hmem, by simp; omega⟩

/-- Witness for `canMakeRequest_spec`: a concrete instance of each conjunct. -/
theorem canMakeRequest_spec_witness :
    (canMakeRequest RateState.empty "no-such-model" 0).1 = false ∧
    ((canMakeRequest (RateState.empty.set FLASH_ID [500]) FLASH_ID 1000).1 = true ↔
      windowCount (RateState.empty.set FLASH_ID [500]) FLASH_ID 1000 < 15) ∧
    ((canMakeRequest (RateState.empty.set FLASH_THINKING_ID
        [0, 1, 2, 3, 4, 5, 6, 7, 8, 9]) FLASH_THINKING_ID 70000).1 = true ↔
      (0 : Int) + ONE_MINUTE_MS < 70000) := by
  refine ⟨?_, ?_, ?_⟩
  · exact canMakeRequest_spec.1 RateState.empty "no-such-model" 0 (by decide)
  · exact canMakeRequest_spec.2.1 (RateState.empty.set FLASH_ID [500]) FLASH_ID flashModel
      1000 (by decide)
  · exact canMakeRequest_spec.2.2 (RateState.empty.set FLASH_THINKING_ID
      [0, 1, 2, 3, 4, 5, 6, 7, 8, 9]) FLASH_THINKING_ID flashThinkingModel
      [0, 1, 2, 3, 4, 5, 6, 7, 8, 9] 0 (by decide) (by decide) (by decide)
      (by decide) (by decide) 70000

theorem set_self (st : RateState) (m : String) (ts : List Int) :
    (st.set m ts) m = some ts := by
  simp [RateState.set]

theorem canMakeRequest_false_window {st : RateState} {m : String} {md : GeminiModel}
    {now : Int} (hm : MODELS m = some md)
    (hcan : (canMakeRequest st m now).1 = false) :
    (canMakeRequest st m now).2 m = some (prunedWindow st m now) ∧
    md.freeRpm ≤ (prunedWindow st m now).length := by
  cases hst : st m with
  | none => simp [canMakeRequest, hm, hst] at hcan
  | some ts =>
    simp only [canMakeRequest, hm, hst, decide_eq_false_iff_not, not_lt] at hcan
    constructor
    · simp [canMakeRequest, hm, hst, set_self, prunedWindow]
    · simpa [prunedWindow, hst] using hcan

theorem getD_insertionSort_mem (l : List Int) (k : Nat)
    (hk : k < (List.insertionSort (· ≤ ·) l).length) :
    (List.insertionSort (· ≤ ·) l).getD k 0 ∈ l := by
  have hperm := List.perm_insertionSort (α := Int) (· ≤ ·) l
  rw [List.getD_eq_getElem _ 0 hk]
  exact hperm.mem_iff.mp (List.getElem_mem hk)

theorem oldestRelevant_in_window {st : RateState} {m : String} {md : GeminiModel}
    {now : Int} (hm : MODELS m = some md)
    (hcan : (canMakeRequest st m now).1 = false) :
    now - ONE_MINUTE_MS ≤ oldestRelevant st m now md.freeRpm := by
  obtain ⟨-, hlen⟩ := canMakeRequest_false_window hm hcan
  have hpos := MODELS_freeRpm_pos hm
  have hslen : (List.insertionSort (· ≤ ·) (prunedWindow st m now)).length =
      (prunedWindow st m now).length := (List.perm_insertionSort _ _).length_eq
  have hk : (List.insertionSort (· ≤ ·) (prunedWindow st m now)).length - md.freeRpm <
      (List.insertionSort (· ≤ ·) (prunedWindow st m now)).length := by omega
  have hmem := getD_insertionSort_mem (prunedWindow st m now) _ hk
  rw [prunedWindow] at hmem
  have hpred := (List.mem_filter.mp hmem).2
  simp only [oldestRelevant]
  exact of_decide_eq_true hpred

/-- **C3 (amended).** `getTimeUntilNextSlot` is always ≥ 0; it is 0 whenever
admission is possible; for a registered model with admission denied it equals
`(oldest relevant in-window timestamp + 60s) - now` clamped to ≥ 0, which is 0
exactly when that oldest relevant timestamp is exactly 60 seconds old (so a
zero wait does not imply admission); for an unregistered model it is 60000. -/
theorem getTimeUntilNextSlot_spec :
    (∀ (st : RateState) (m : String) (now : Int), 0 ≤ (getTimeUntilNextSlot st m now).1) ∧
    (∀ (st : RateState) (m : String) (now : Int), (canMakeRequest st m now).1 = true →
      (getTimeUntilNextSlot st m now).1 = 0) ∧
    (∀ (st : RateState) (m : String) (md : GeminiModel) (now : Int),
      MODELS m = some md → (canMakeRequest st m now).1 = false →
      (getTimeUntilNextSlot st m now).1 =
        max 0 (oldestRelevant st m now md.freeRpm + 60000 - now) ∧
      ((getTimeUntilNextSlot st m now).1 = 0 ↔
        oldestRelevant st m now md.freeRpm = now - ONE_MINUTE_MS)) ∧
    (∀ (st : RateState) (m : String) (now : Int), MODELS m = none →
      (getTimeUntilNextSlot st m now).1 = 60000) := by
  refine ⟨?_, ?_, ?_, ?_⟩
  · intro st m now
    rcases hE : canMakeRequest st m now with ⟨b, st2⟩
    cases b with
    | true => simp [getTimeUntilNextSlot, hE]
    | false =>
      cases hm : MODELS m with
      | none => simp [getTimeUntilNextSlot, hE, hm]
      | some md =>
        simp only [getTimeUntilNextSlot, hE, Bool.false_eq_true, if_false, hm]
        split
        · simp
        · simp [le_max_left]
  · intro st m now h
    rcases hE : canMakeRequest st m now with ⟨b, st2⟩
    rw [hE] at h
    simp at h
    simp [getTimeUntilNextSlot, hE, h]
  · intro st m md now hm hcan
    obtain ⟨hwin, hlen⟩ := canMakeRequest_false_window hm hcan
    have hold := oldestRelevant_in_window hm hcan
    rcases hE : canMakeRequest st m now with ⟨b, st2⟩
    rw [hE] at hcan hwin
    subst hcan
    simp only at hwin
    have hval : (getTimeUntilNextSlot st m now).1 =
        max 0 (oldestRelevant st m now md.freeRpm + 60000 - now) := by
      simp only [getTimeUntilNextSlot, hE, Bool.false_eq_true, if_false, hm, hwin,
        Option.getD_some]
      rw [if_neg (by omega)]
      simp [oldestRelevant]
    refine ⟨hval, ?_⟩
    rw [hval]
    have h60 : ONE_MINUTE_MS = 60000 := by decide
    rw [h60] at hold
    rw [h60]
    omega
  · intro st m now hm
    simp [getTimeUntilNextSlot, canMakeRequest, hm]

/-- State with 10 thinking-model timestamps recorded at time 0: at `now =
60000` the oldest is exactly 60 seconds old, still inside the `t >=
now - 60000` window. -/
def boundarySt : RateState :=
  RateState.empty.set FLASH_THINKING_ID [0, 0, 0, 0, 0, 0, 0, 0, 0, 0]

/-- **C3 counterexample.** At the window boundary, admission is denied yet the
computed wait time is 0 — refuting "timeUntilNextSlot equals 0 if and only if
canAdmit is true". -/
theorem getTimeUntilNextSlot_claim_counterexample :
    (canMakeRequest boundarySt FLASH_THINKING_ID 60000).1 = false ∧
    (getTimeUntilNextSlot boundarySt FLASH_THINKING_ID 60000).1 = 0 := by
  constructor
  · decide
  · decide

/-- Witness for `getTimeUntilNextSlot_spec`. -/
theorem getTimeUntilNextSlot_spec_witness :
    (getTimeUntilNextSlot RateState.empty FLASH_ID 0).1 = 0 ∧
    ((getTimeUntilNextSlot boundarySt FLASH_THINKING_ID 60000).1 = 0 ↔
      oldestRelevant boundarySt FLASH_THINKING_ID 60000 10 = 60000 - ONE_MINUTE_MS) ∧
    (getTimeUntilNextSlot RateState.empty "no-such-model" 0).1 = 60000 := by
  refine ⟨?_, ?_, ?_⟩
  · exact getTimeUntilNextSlot_spec.2.1 RateState.empty FLASH_ID 0 (by decide)
  · exact (getTimeUntilNextSlot_spec.2.2.1 boundarySt FLASH_THINKING_ID flashThinkingModel
      60000 (by decide) (by decide)).2
  · exact getTimeUntilNextSlot_spec.2.2.2 RateState.empty "no-such-model" 0 (by decide)

/-! ## Retry loop (src/utils/rate-limiter.ts, `executeWithRetry`)

The opaque asynchronous `apiCall` becomes a function from the attempt index
(equal to the `retries` counter at the time of the call) to an `Except`
outcome; `Math.random()` becomes an explicit stream `rand` of draws, and
`Date.now()` an explicit clock indexed by the loop iteration. -/

def RATE_LIMITS_MAX_RETRIES : Nat := 5

def RATE_LIMITS_BASE_DELAY_MS : ℚ := 1000

def RATE_LIMITS_MAX_DELAY_MS : ℚ := 60000

def RATE_LIMITS_JITTER_FACTOR : ℚ := 1 / 5

/-- `RateLimitManager.calculateBackoff`, with the `Math.random()` draw passed
in as `rand ∈ [0, 1)`. -/
def calculateBackoff (retry : Nat) (rand : ℚ) : Int :=
  let exponentialDelay := min RATE_LIMITS_MAX_DELAY_MS (RATE_LIMITS_BASE_DELAY_MS * 2 ^ retry)
  let jitter := RATE_LIMITS_JITTER_FACTOR
  let randomFactor := 1 - jitter + rand * jitter * 2
  Int.floor (exponentialDelay * randomFactor)

/-- The observable part of an upstream failure: whether it is an Axios error
and the HTTP status of its response (`none` = no structured response). -/
structure ApiError where
  isAxiosErr : Bool
  status : Option Int
deriving DecidableEq, Repr

/-- Everything `executeWithRetry` can throw: an upstream error, its own
rate-limit `Error` (`ERROR_MESSAGES.RATE_LIMIT`, carrying the wait-seconds
hint), or the unreachable generic maximum-retries `Error`. -/
inductive Thrown where
  | api (e : ApiError)
  | rateLimitMsg (modelId : String) (waitSeconds : Int)
  | maxRetriesMsg (modelId : String)
deriving DecidableEq, Repr

/-- `RateLimitManager.isRateLimitError`: an Axios error whose response status
is 429.  The two locally thrown `Error`s are not Axios errors. -/
def isRateLimitError : Thrown → Bool
  | .api e => e.isAxiosErr && e.status == some 429
  | .rateLimitMsg _ _ => false
  | .maxRetriesMsg _ => false

/-- `Math.ceil(waitTime / 1000)` on integer milliseconds. -/
def ceilSeconds (waitTime : Int) : Int := (waitTime + 999) / 1000

inductive RunOut (α : Type) where
  | ok (v : α)
  | err (e : Thrown)
deriving DecidableEq, Repr

/-- Observable outcome of one `executeWithRetry` invocation: the returned value
or thrown error, the final rate-limiter state, the number of times `apiCall`
was invoked, the backoff durations slept, and the number of loop iterations. -/
structure RunResult (α : Type) where
  out : RunOut α
  st : RateState
  calls : Nat
  sleeps : List Int
  checks : Nat

/-- The `while (retries <= MAX_RETRIES)` loop of
`RateLimitManager.executeWithRetry`, by structural recursion on the remaining
permitted iterations (`fuel = MAX_RETRIES + 1 - retries`); the `fuel = 0` case
is the dead generic throw after the loop. -/
def executeWithRetryAux {α : Type} (modelId : String) (apiCall : Nat → Except ApiError α)
    (rand : Nat → ℚ) (clock : Nat → Int) :
    Nat → Nat → RateState → RunResult α
  | 0, _, st => ⟨.err (.maxRetriesMsg modelId), st, 0, [], 0⟩
  | fuel + 1, retries, st =>
    let now := clock retries
    let p := canMakeRequest st modelId now
    if !p.1 && retries == 0 then
      let q := getTimeUntilNextSlot p.2 modelId now
      ⟨.err (.rateLimitMsg modelId (ceilSeconds q.1)), q.2, 0, [], 1⟩
    else
      match apiCall retries with
      | .ok response => ⟨.ok response, recordRequest p.2 modelId now, 1, [], 1⟩
      | .error error =>
        if isRateLimitError (.api error) && decide (retries < RATE_LIMITS_MAX_RETRIES) then
          let backoffTime := calculateBackoff retries (rand retries)
          let r := executeWithRetryAux modelId apiCall rand clock fuel (retries + 1) p.2
          ⟨r.out, r.st, r.calls + 1, backoffTime :: r.sleeps, r.checks + 1⟩
        else
          ⟨.err (.api error), p.2, 1, [], 1⟩

/-- `RateLimitManager.executeWithRetry`. -/
def executeWithRetry {α : Type} (st : RateState) (modelId : String)
    (apiCall : Nat → Except ApiError α) (rand : Nat → ℚ) (clock : Nat → Int) : RunResult α :=
  executeWithRetryAux modelId apiCall rand clock (RATE_LIMITS_MAX_RETRIES + 1) 0 st

theorem executeWithRetryAux_calls_le {α : Type} (m : String)
    (apiCall : Nat → Except ApiError α) (rand : Nat → ℚ) (clock : Nat → Int) :
    ∀ fuel retries st,
      (executeWithRetryAux m apiCall rand clock fuel retries st).calls ≤ fuel := by
  intro fuel
  induction fuel with
  | zero => intro retries st; simp [executeWithRetryAux]
  | succ n ih =>
    intro retries st
    simp only [executeWithRetryAux]
    split
    · simp
    · split
      · simp
      · split
        · simpa using Nat.succ_le_succ (ih _ _)
        · simp

/-- **C4.** `apiCall` is performed at most `1 + maxRetries` (= 6) times per
invocation of `executeWithRetry`; moreover when every attempt fails with a
retriable (429) error the loop runs the full 6 attempts and terminates by
raising that last failure. -/
theorem executeWithRetry_attempts_bound :
    (∀ (α : Type) (st : RateState) (m : String) (apiCall : Nat → Except ApiError α)
      (rand : Nat → ℚ) (clock : Nat → Int),
      (executeWithRetry st m apiCall rand clock).calls ≤ 1 + RATE_LIMITS_MAX_RETRIES) ∧
    (∀ (α : Type) (st : RateState) (m : String) (apiCall : Nat → Except ApiError α)
      (rand : Nat → ℚ) (clock : Nat → Int) (e : ApiError),
      (canMakeRequest st m (clock 0)).1 = true →
      isRateLimitError (.api e) = true →
      (∀ i, apiCall i = .error e) →
      (executeWithRetry st m apiCall rand clock).out = .err (.api e) ∧
      (executeWithRetry st m apiCall rand clock).calls = 1 + RATE_LIMITS_MAX_RETRIES) := by
  constructor
  · intro α st m apiCall rand clock
    simpa [RATE_LIMITS_MAX_RETRIES] using
      executeWithRetryAux_calls_le m apiCall rand clock (RATE_LIMITS_MAX_RETRIES + 1) 0 st
  · intro α st m apiCall rand clock e hcan hrl hfail
    constructor
    · simp [executeWithRetry, executeWithRetryAux, hcan, hrl, hfail,
        RATE_LIMITS_MAX_RETRIES]
    · simp [executeWithRetry, executeWithRetryAux, hcan, hrl, hfail,
        RATE_LIMITS_MAX_RETRIES]

/-- Witness for `executeWithRetry_attempts_bound`: six attempts exactly when
every call fails with a 429 Axios error from an admissible start state. -/
theorem executeWithRetry_attempts_bound_witness :
    (executeWithRetry (α := Nat) RateState.empty FLASH_ID
      (fun _ => .error ⟨true, some 429⟩) (fun _ => 1 / 2) (fun _ => 0)).out =
        .err (.api ⟨true, some 429⟩) ∧
    (executeWithRetry (α := Nat) RateState.empty FLASH_ID
      (fun _ => .error ⟨true, some 429⟩) (fun _ => 1 / 2) (fun _ => 0)).calls =
        1 + RATE_LIMITS_MAX_RETRIES :=
  executeWithRetry_attempts_bound.2 Nat RateState.empty FLASH_ID
    (fun _ => .error ⟨true, some 429⟩) (fun _ => 1 / 2) (fun _ => 0) ⟨true, some 429⟩
    (by decide) (by decide) (fun _ => rfl)

/-- **C2 counterexample.** An upstream 5xx failure (Axios error, status 500)
is NOT retried: `executeWithRetry` invokes the operation exactly once and
propagates the failure, contradicting "retried with the same backoff policy". -/
theorem serverError_retry_counterexample :
    (executeWithRetry (α := Nat) RateState.empty FLASH_ID
      (fun _ => .error ⟨true, some 500⟩) (fun _ => 1 / 2) (fun _ => 0)).out =
        .err (.api ⟨true, some 500⟩) ∧
    (executeWithRetry (α := Nat) RateState.empty FLASH_ID
      (fun _ => .error ⟨true, some 500⟩) (fun _ => 1 / 2) (fun _ => 0)).calls = 1 ∧
    (executeWithRetry (α := Nat) RateState.empty FLASH_ID
      (fun _ => .error ⟨true, some 500⟩) (fun _ => 1 / 2) (fun _ => 0)).sleeps = [] := by
  refine ⟨by decide, by decide, by decide⟩

/-- **C2 (amended).** Only failures classified as rate-limit errors (Axios
errors with response status 429) are retried; every other failure of the first
attempt — upstream 5xx server errors included — is propagated unchanged after a
single invocation of the operation, with no backoff sleep.  (`handleApiError`
marks 5xx errors `isRetriable`, but `executeWithRetry` never consults that
flag.) -/
theorem nonRateLimit_failure_propagates :
    ∀ (α : Type) (st : RateState) (m : String) (apiCall : Nat → Except ApiError α)
      (rand : Nat → ℚ) (clock : Nat → Int) (e : ApiError),
      (canMakeRequest st m (clock 0)).1 = true →
      apiCall 0 = .error e →
      isRateLimitError (.api e) = false →
      (executeWithRetry st m apiCall rand clock).out = .err (.api e) ∧
      (executeWithRetry st m apiCall rand clock).calls = 1 ∧
      (executeWithRetry st m apiCall rand clock).sleeps = [] := by
  intro α st m apiCall rand clock e hcan hfail hnotrl
  refine ⟨?_, ?_, ?_⟩ <;>
    simp [executeWithRetry, executeWithRetryAux, hcan, hfail, hnotrl]

/-- Witness for `nonRateLimit_failure_propagates` at an Axios 503 failure. -/
theorem nonRateLimit_failure_propagates_witness :
    (executeWithRetry (α := Nat) RateState.empty FLASH_LITE_ID
      (fun _ => .error ⟨true, some 503⟩) (fun _ => 1 / 2) (fun _ => 7)).out =
        .err (.api ⟨true, some 503⟩) ∧
    (executeWithRetry (α := Nat) RateState.empty FLASH_LITE_ID
      (fun _ => .error ⟨true, some 503⟩) (fun _ => 1 / 2) (fun _ => 7)).calls = 1 ∧
    (executeWithRetry (α := Nat) RateState.empty FLASH_LITE_ID
      (fun _ => .error ⟨true, some 503⟩) (fun _ => 1 / 2) (fun _ => 7)).sleeps = [] :=
  nonRateLimit_failure_propagates Nat RateState.empty FLASH_LITE_ID
    (fun _ => .error ⟨true, some 503⟩) (fun _ => 1 / 2) (fun _ => 7) ⟨true, some 503⟩
    (by decide) rfl (by decide)

theorem ceilSeconds_eq_ceil (w : Int) : ceilSeconds w = ⌈(w : ℚ) / 1000⌉ := by
  unfold ceilSeconds
  have h1 : ((1000 : ℚ)) * (((w + 999) / 1000 : ℤ) : ℚ) + (((w + 999) % 1000 : ℤ) : ℚ) =
      (w : ℚ) + 999 := by
    exact_mod_cast Int.ediv_add_emod (w + 999) 1000
  have h2 : (0 : ℚ) ≤ (((w + 999) % 1000 : ℤ) : ℚ) := by
    exact_mod_cast Int.emod_nonneg (w + 999) (by norm_num : (1000 : ℤ) ≠ 0)
  have h3 : (((w + 999) % 1000 : ℤ) : ℚ) ≤ 999 := by
    have := Int.emod_lt_of_pos (w + 999) (by norm_num : (0 : ℤ) < 1000)
    exact_mod_cast by omega

  symm
  rw [Int.ceil_eq_iff]
  constructor
  · rw [lt_div_iff₀ (by norm_num : (0 : ℚ) < 1000)]
    linarith [h1, h2, h3]
  · rw [div_le_iff₀ (by norm_num : (0 : ℚ) < 1000)]
    linarith [h1, h2, h3]

/-- **C5.** When admission is denied at entry (retry count 0),
`executeWithRetry` fails immediately with the rate-limit error carrying the
wait time rounded up to whole seconds: the operation is never invoked and no
backoff sleep happens. -/
theorem rateLimited_failFast :
    ∀ (α : Type) (st : RateState) (m : String) (apiCall : Nat → Except ApiError α)
      (rand : Nat → ℚ) (clock : Nat → Int),
      (canMakeRequest st m (clock 0)).1 = false →
      (executeWithRetry st m apiCall rand clock).out = .err (.rateLimitMsg m
        ⌈((getTimeUntilNextSlot (canMakeRequest st m (clock 0)).2 m (clock 0)).1 : ℚ) / 1000⌉) ∧
      (executeWithRetry st m apiCall rand clock).calls = 0 ∧
      (executeWithRetry st m apiCall rand clock).sleeps = [] := by
  intro α st m apiCall rand clock hcan
  rw [← ceilSeconds_eq_ceil]
  refine ⟨?_, ?_, ?_⟩ <;> simp [executeWithRetry, executeWithRetryAux, hcan]

/-- Witness for `rateLimited_failFast`: unknown model, wait hint
`ceil(60000 / 1000) = 60` seconds, zero calls. -/
theorem rateLimited_failFast_witness :
    (executeWithRetry (α := Nat) RateState.empty "no-such-model"
      (fun _ => .ok 0) (fun _ => 1 / 2) (fun _ => 0)).out =
        .err (.rateLimitMsg "no-such-model"
          ⌈((getTimeUntilNextSlot (canMakeRequest RateState.empty "no-such-model" 0).2
              "no-such-model" 0).1 : ℚ) / 1000⌉) ∧
    (executeWithRetry (α := Nat) RateState.empty "no-such-model"
      (fun _ => .ok 0) (fun _ => 1 / 2) (fun _ => 0)).calls = 0 :=
  ⟨(rateLimited_failFast Nat RateState.empty "no-such-model"
      (fun _ => .ok 0) (fun _ => 1 / 2) (fun _ => 0) (by decide)).1,
    (rateLimited_failFast Nat RateState.empty "no-such-model"
      (fun _ => .ok 0) (fun _ => 1 / 2) (fun _ => 0) (by decide)).2.1⟩

theorem expDelay_nonneg (retry : Nat) :
    0 ≤ min RATE_LIMITS_MAX_DELAY_MS (RATE_LIMITS_BASE_DELAY_MS * 2 ^ retry) := by
  apply le_min
  · norm_num [RATE_LIMITS_MAX_DELAY_MS]
  · unfold RATE_LIMITS_BASE_DELAY_MS
    positivity

/-- **C6.** The backoff delay equals `floor(min(maxDelay, baseDelay * 2^r) * u)`
for a jitter factor `u ∈ [1 - 0.2, 1 + 0.2]`, always lies between the
jitter-scaled endpoints of the clamped exponential delay, and is monotonically
non-decreasing in the retry count (for the same random draw). -/
theorem calculateBackoff_spec :
    ∀ (retry : Nat) (rand : ℚ), 0 ≤ rand → rand < 1 →
      (∃ u : ℚ, 1 - RATE_LIMITS_JITTER_FACTOR ≤ u ∧ u ≤ 1 + RATE_LIMITS_JITTER_FACTOR ∧
        calculateBackoff retry rand =
          ⌊min RATE_LIMITS_MAX_DELAY_MS (RATE_LIMITS_BASE_DELAY_MS * 2 ^ retry) * u⌋) ∧
      (min RATE_LIMITS_MAX_DELAY_MS (RATE_LIMITS_BASE_DELAY_MS * 2 ^ retry) *
          (1 - RATE_LIMITS_JITTER_FACTOR) ≤ (calculateBackoff retry rand : ℚ) ∧
        (calculateBackoff retry rand : ℚ) ≤
          min RATE_LIMITS_MAX_DELAY_MS (RATE_LIMITS_BASE_DELAY_MS * 2 ^ retry) *
            (1 + RATE_LIMITS_JITTER_FACTOR)) ∧
      (∀ r2 : Nat, retry ≤ r2 → calculateBackoff retry rand ≤ calculateBackoff r2 rand) := by
  intro retry rand h0 h1
  have hj : RATE_LIMITS_JITTER_FACTOR = 1 / 5 := rfl
  have hu1 : 1 - RATE_LIMITS_JITTER_FACTOR ≤
      1 - RATE_LIMITS_JITTER_FACTOR + rand * RATE_LIMITS_JITTER_FACTOR * 2 := by
    rw [hj]; linarith
  have hu2 : 1 - RATE_LIMITS_JITTER_FACTOR + rand * RATE_LIMITS_JITTER_FACTOR * 2 ≤
      1 + RATE_LIMITS_JITTER_FACTOR := by
    rw [hj]; linarith
  refine ⟨⟨1 - RATE_LIMITS_JITTER_FACTOR + rand * RATE_LIMITS_JITTER_FACTOR * 2,
    hu1, hu2, rfl⟩, ⟨?_, ?_⟩, ?_⟩
  · rcases min_cases RATE_LIMITS_MAX_DELAY_MS (RATE_LIMITS_BASE_DELAY_MS * 2 ^ retry) with
      ⟨hmin, -⟩ | ⟨hmin, -⟩
    · rw [calculateBackoff]
      simp only [hmin]
      have hz : (48000 : ℤ) ≤
          ⌊RATE_LIMITS_MAX_DELAY_MS *
            (1 - RATE_LIMITS_JITTER_FACTOR + rand * RATE_LIMITS_JITTER_FACTOR * 2)⌋ := by
        rw [Int.le_floor]
        unfold RATE_LIMITS_MAX_DELAY_MS RATE_LIMITS_JITTER_FACTOR
        push_cast
        linarith
      calc RATE_LIMITS_MAX_DELAY_MS * (1 - RATE_LIMITS_JITTER_FACTOR) = ((48000 : ℤ) : ℚ) := by
            norm_num [RATE_LIMITS_MAX_DELAY_MS, RATE_LIMITS_JITTER_FACTOR]
        _ ≤ _ := by exact_mod_cast hz
    · rw [calculateBackoff]
      simp only [hmin]
      have hP : (0 : ℚ) < 2 ^ retry := by positivity
      have hz : ((800 * 2 ^ retry : ℤ)) ≤
          ⌊RATE_LIMITS_BASE_DELAY_MS * 2 ^ retry *
            (1 - RATE_LIMITS_JITTER_FACTOR + rand * RATE_LIMITS_JITTER_FACTOR * 2)⌋ := by
        rw [Int.le_floor]
        unfold RATE_LIMITS_BASE_DELAY_MS RATE_LIMITS_JITTER_FACTOR
        push_cast
        nlinarith [hP, h0]
      calc RATE_LIMITS_BASE_DELAY_MS * 2 ^ retry * (1 - RATE_LIMITS_JITTER_FACTOR) =
            ((800 * 2 ^ retry : ℤ) : ℚ) := by
            push_cast
            norm_num [RATE_LIMITS_BASE_DELAY_MS, RATE_LIMITS_JITTER_FACTOR]
            ring
        _ ≤ _ := by exact_mod_cast hz
  · have hE := expDelay_nonneg retry
    calc ((calculateBackoff retry rand : ℤ) : ℚ) ≤
          min RATE_LIMITS_MAX_DELAY_MS (RATE_LIMITS_BASE_DELAY_MS * 2 ^ retry) *
            (1 - RATE_LIMITS_JITTER_FACTOR + rand * RATE_LIMITS_JITTER_FACTOR * 2) := by
          rw [calculateBackoff]
          exact Int.floor_le _
      _ ≤ min RATE_LIMITS_MAX_DELAY_MS (RATE_LIMITS_BASE_DELAY_MS * 2 ^ retry) *
            (1 + RATE_LIMITS_JITTER_FACTOR) :=
          mul_le_mul_of_nonneg_left hu2 hE
  · intro r2 hr
    rw [calculateBackoff, calculateBackoff]
    apply Int.floor_le_floor
    apply mul_le_mul_of_nonneg_right
    · apply min_le_min le_rfl
      apply mul_le_mul_of_nonneg_left _ (by norm_num [RATE_LIMITS_BASE_DELAY_MS])
      exact pow_le_pow_right₀ (by norm_num) hr
    · rw [hj]; linarith

/-- Witness for `calculateBackoff_spec` at `retry = 2`, `rand = 1/2`. -/
theorem calculateBackoff_spec_witness :
    (min RATE_LIMITS_MAX_DELAY_MS (RATE_LIMITS_BASE_DELAY_MS * 2 ^ 2) *
        (1 - RATE_LIMITS_JITTER_FACTOR) ≤ (calculateBackoff 2 (1 / 2) : ℚ)) ∧
    calculateBackoff 2 (1 / 2) ≤ calculateBackoff 3 (1 / 2) :=
  ⟨(calculateBackoff_spec 2 (1 / 2) (by norm_num) (by norm_num)).2.1.1,
    (calculateBackoff_spec 2 (1 / 2) (by norm_num) (by norm_num)).2.2 3 (by norm_num)⟩

/-! ### State-shape lemmas for the retry loop -/

theorem RateState.set_other {st : RateState} {m m' : String} {ts : List Int} (h : m' ≠ m) :
    (st.set m ts) m' = st m' := by
  simp [RateState.set, h]

theorem canMakeRequest_st_other {st : RateState} {m m' : String} {now : Int} (h : m' ≠ m) :
    (canMakeRequest st m now).2 m' = st m' := by
  unfold canMakeRequest
  split
  · rfl
  · split
    · exact RateState.set_other h
    · exact RateState.set_other h

theorem getTimeUntilNextSlot_st_other {st : RateState} {m m' : String} {now : Int}
    (h : m' ≠ m) : (getTimeUntilNextSlot st m now).2 m' = st m' := by
  have h1 := @canMakeRequest_st_other st m m' now h
  rcases hE : canMakeRequest st m now with ⟨b, st2⟩
  rw [hE] at h1
  simp only at h1
  simp only [getTimeUntilNextSlot, hE]
  split
  · exact h1
  · split
    · exact h1
    · split
      · exact h1
      · dsimp only
        rw [RateState.set_other h]
        exact h1

theorem recordRequest_st_other {st : RateState} {m m' : String} {now : Int} (h : m' ≠ m) :
    recordRequest st m now m' = st m' := by
  unfold recordRequest
  exact RateState.set_other h

theorem executeWithRetryAux_st_other {α : Type} (m : String)
    (apiCall : Nat → Except ApiError α) (rand : Nat → ℚ) (clock : Nat → Int) :
    ∀ fuel retries st (m' : String), m' ≠ m →
      (executeWithRetryAux m apiCall rand clock fuel retries st).st m' = st m' := by
  intro fuel
  induction fuel with
  | zero => intro retries st m' hne; simp [executeWithRetryAux]
  | succ n ih =>
    intro retries st m' hne
    simp only [executeWithRetryAux]
    split
    · dsimp only
      rw [getTimeUntilNextSlot_st_other hne, canMakeRequest_st_other hne]
    · split
      · dsimp only
        rw [recordRequest_st_other hne, canMakeRequest_st_other hne]
      · split
        · dsimp only
          rw [ih _ _ _ hne, canMakeRequest_st_other hne]
        · dsimp only
          rw [canMakeRequest_st_other hne]

theorem filter_filter_of_imp {p q : Int → Bool} (h : ∀ a, p a = true → q a = true)
    (l : List Int) : (l.filter q).filter p = l.filter p := by
  induction l with
  | nil => rfl
  | cons a l ih =>
    by_cases hq : q a
    · by_cases hp : p a <;> simp [List.filter_cons, hq, hp, ih]
    · have hp : p a = false := by
        cases hpa : p a
        · rfl
        · exact absurd (h a hpa) (by simp [hq])
      simp [List.filter_cons, hq, hp, ih]

/-- After `canMakeRequest` runs, the stored window for the model is exactly the
pruned window of the original state (for a registered model). -/
theorem canMakeRequest_window {st : RateState} {m : String} {md : GeminiModel} {now : Int}
    (hm : MODELS m = some md) :
    ((canMakeRequest st m now).2 m).getD [] = prunedWindow st m now := by
  cases hst : st m with
  | none => simp [canMakeRequest, hm, hst, set_self, prunedWindow]
  | some ts => simp [canMakeRequest, hm, hst, set_self, prunedWindow]

theorem canMakeRequest_fst {st : RateState} {m : String} {md : GeminiModel} {now : Int}
    (hm : MODELS m = some md) :
    (canMakeRequest st m now).1 = decide (windowCount st m now < md.freeRpm) := by
  cases hst : st m with
  | none =>
    have hpos := MODELS_freeRpm_pos hm
    simp [canMakeRequest, hm, hst, windowCount, prunedWindow, hpos]
  | some ts => simp [canMakeRequest, hm, hst, windowCount, prunedWindow]

theorem prunedWindow_after {st : RateState} {m : String} {md : GeminiModel} {t1 t2 : Int}
    (hm : MODELS m = some md) (h : t1 ≤ t2) :
    prunedWindow ((canMakeRequest st m t1).2) m t2 = prunedWindow st m t2 := by
  have hw := @canMakeRequest_window st m md t1 hm
  unfold prunedWindow at hw ⊢
  rw [hw]
  apply filter_filter_of_imp
  intro a ha
  simp only [decide_eq_true_eq] at ha ⊢
  simp only [ONE_MINUTE_MS] at ha ⊢
  omega

theorem canMakeRequest_fst_again {st : RateState} {m : String} {md : GeminiModel} {now : Int}
    (hm : MODELS m = some md) :
    (canMakeRequest ((canMakeRequest st m now).2) m now).1 = (canMakeRequest st m now).1 := by
  rw [canMakeRequest_fst hm, canMakeRequest_fst hm]
  unfold windowCount
  rw [prunedWindow_after hm le_rfl]

/-- The state stored by a failing `getTimeUntilNextSlot` call still holds (a
permutation of) the pruned window. -/
theorem getTimeUntilNextSlot_window {st : RateState} {m : String} {md : GeminiModel}
    {now : Int} (hm : MODELS m = some md) (hcan : (canMakeRequest st m now).1 = false) :
    List.Perm (((getTimeUntilNextSlot st m now).2 m).getD []) (prunedWindow st m now) := by
  obtain ⟨hwin, hlen⟩ := canMakeRequest_false_window hm hcan
  rcases hE : canMakeRequest st m now with ⟨b, st2⟩
  rw [hE] at hcan hwin
  subst hcan
  simp only at hwin
  simp only [getTimeUntilNextSlot, hE, Bool.false_eq_true, if_false, hm, hwin,
    Option.getD_some]
  rw [if_neg (by omega)]
  simp only [set_self, Option.getD_some]
  exact List.perm_insertionSort _ _

/-! ### One-step unfolding equations for the retry loop -/

theorem executeWithRetryAux_succ_entry {α : Type} {m : String}
    {apiCall : Nat → Except ApiError α} {rand : Nat → ℚ} {clock : Nat → Int}
    {n retries : Nat} {st : RateState}
    (h : (!(canMakeRequest st m (clock retries)).1 && retries == 0) = true) :
    executeWithRetryAux m apiCall rand clock (n + 1) retries st =
      ⟨.err (.rateLimitMsg m (ceilSeconds (getTimeUntilNextSlot
          (canMakeRequest st m (clock retries)).2 m (clock retries)).1)),
        (getTimeUntilNextSlot (canMakeRequest st m (clock retries)).2 m (clock retries)).2,
        0, [], 1⟩ := by
  simp [executeWithRetryAux, h]

theorem executeWithRetryAux_succ_ok {α : Type} {m : String}
    {apiCall : Nat → Except ApiError α} {rand : Nat → ℚ} {clock : Nat → Int}
    {n retries : Nat} {st : RateState} {v : α}
    (h : (!(canMakeRequest st m (clock retries)).1 && retries == 0) = false)
    (hapi : apiCall retries = .ok v) :
    executeWithRetryAux m apiCall rand clock (n + 1) retries st =
      ⟨.ok v, recordRequest (canMakeRequest st m (clock retries)).2 m (clock retries),
        1, [], 1⟩ := by
  simp [executeWithRetryAux, h, hapi]

theorem executeWithRetryAux_succ_fatal {α : Type} {m : String}
    {apiCall : Nat → Except ApiError α} {rand : Nat → ℚ} {clock : Nat → Int}
    {n retries : Nat} {st : RateState} {err : ApiError}
    (h : (!(canMakeRequest st m (clock retries)).1 && retries == 0) = false)
    (hapi : apiCall retries = .error err)
    (hretr : (isRateLimitError (.api err) && decide (retries < RATE_LIMITS_MAX_RETRIES)) =
      false) :
    executeWithRetryAux m apiCall rand clock (n + 1) retries st =
      ⟨.err (.api err), (canMakeRequest st m (clock retries)).2, 1, [], 1⟩ := by
  simp [executeWithRetryAux, h, hapi, hretr]

theorem executeWithRetryAux_succ_retry {α : Type} {m : String}
    {apiCall : Nat → Except ApiError α} {rand : Nat → ℚ} {clock : Nat → Int}
    {n retries : Nat} {st : RateState} {err : ApiError}
    (h : (!(canMakeRequest st m (clock retries)).1 && retries == 0) = false)
    (hapi : apiCall retries = .error err)
    (hretr : (isRateLimitError (.api err) && decide (retries < RATE_LIMITS_MAX_RETRIES)) =
      true) :
    executeWithRetryAux m apiCall rand clock (n + 1) retries st =
      ⟨(executeWithRetryAux m apiCall rand clock n (retries + 1)
          (canMakeRequest st m (clock retries)).2).out,
        (executeWithRetryAux m apiCall rand clock n (retries + 1)
          (canMakeRequest st m (clock retries)).2).st,
        (executeWithRetryAux m apiCall rand clock n (retries + 1)
          (canMakeRequest st m (clock retries)).2).calls + 1,
        calculateBackoff retries (rand retries) ::
          (executeWithRetryAux m apiCall rand clock n (retries + 1)
            (canMakeRequest st m (clock retries)).2).sleeps,
        (executeWithRetryAux m apiCall rand clock n (retries + 1)
          (canMakeRequest st m (clock retries)).2).checks + 1⟩ := by
  simp [executeWithRetryAux, h, hapi, hretr]

theorem executeWithRetryAux_err_window {α : Type} {m : String} {md : GeminiModel}
    (hm : MODELS m = some md) (apiCall : Nat → Except ApiError α) (rand : Nat → ℚ)
    (clock : Nat → Int) (hmono : ∀ i j : Nat, i ≤ j → clock i ≤ clock j) :
    ∀ fuel retries st (e : Thrown), 1 ≤ fuel → fuel + retries = 6 →
      (executeWithRetryAux m apiCall rand clock fuel retries st).out = .err e →
      List.Perm (((executeWithRetryAux m apiCall rand clock fuel retries st).st m).getD [])
        (prunedWindow st m (clock (retries +
          (executeWithRetryAux m apiCall rand clock fuel retries st).checks - 1))) ∧
      1 ≤ (executeWithRetryAux m apiCall rand clock fuel retries st).checks := by
  intro fuel
  induction fuel with
  | zero => intro retries st e h1 h2 h3; omega
  | succ n ih =>
    intro retries st e hf hsum hout
    cases hcond : !(canMakeRequest st m (clock retries)).1 && retries == 0 with
    | true =>
      have hp := hcond
      simp only [Bool.and_eq_true, Bool.not_eq_true', beq_iff_eq] at hp
      obtain ⟨hp1, hr0⟩ := hp
      rw [executeWithRetryAux_succ_entry hcond]
      subst hr0
      have hcan2 : (canMakeRequest (canMakeRequest st m (clock 0)).2 m (clock 0)).1 = false := by
        rw [canMakeRequest_fst_again hm]
        exact hp1
      have hperm := getTimeUntilNextSlot_window hm hcan2
      rw [prunedWindow_after hm le_rfl] at hperm
      exact ⟨hperm, le_refl 1⟩
    | false =>
      cases hapi : apiCall retries with
      | ok v =>
        rw [executeWithRetryAux_succ_ok hcond hapi] at hout
        simp at hout
      | error err =>
        cases hretr : isRateLimitError (.api err) &&
            decide (retries < RATE_LIMITS_MAX_RETRIES) with
        | false =>
          rw [executeWithRetryAux_succ_fatal hcond hapi hretr]
          refine ⟨?_, le_refl 1⟩
          rw [canMakeRequest_window hm]
          exact List.Perm.refl _
        | true =>
          rw [executeWithRetryAux_succ_retry hcond hapi hretr] at hout ⊢
          dsimp only at hout ⊢
          have hp := hretr
          simp only [Bool.and_eq_true, decide_eq_true_eq] at hp
          have hlt : retries < 5 := hp.2
          obtain ⟨ihp, ihc⟩ := ih (retries + 1) (canMakeRequest st m (clock retries)).2 e
            (by omega) (by omega) hout
          have hidx : retries + 1 + (executeWithRetryAux m apiCall rand clock n (retries + 1)
              (canMakeRequest st m (clock retries)).2).checks - 1 =
              retries + (executeWithRetryAux m apiCall rand clock n (retries + 1)
              (canMakeRequest st m (clock retries)).2).checks := by omega
          rw [hidx] at ihp
          rw [prunedWindow_after hm (hmono retries (retries + (executeWithRetryAux m apiCall
            rand clock n (retries + 1) (canMakeRequest st m (clock retries)).2).checks)
            (by omega))] at ihp
          constructor
          · have hidx2 : retries + ((executeWithRetryAux m apiCall rand clock n (retries + 1)
                (canMakeRequest st m (clock retries)).2).checks + 1) - 1 =
                retries + (executeWithRetryAux m apiCall rand clock n (retries + 1)
                (canMakeRequest st m (clock retries)).2).checks := by omega
            rw [hidx2]
            exact ihp
          · omega

/-- **C9.** On any invocation of `executeWithRetry` that propagates a failure,
no timestamp is recorded: windows of other models are untouched, an
unregistered model's window is fully untouched, and the failing model's window
ends up holding exactly (a permutation of) the pruning of its initial contents
at the last admission check — `recordRequest` runs only after the operation
succeeds. -/
theorem executeWithRetry_failure_state :
    ∀ (α : Type) (st : RateState) (m : String) (apiCall : Nat → Except ApiError α)
      (rand : Nat → ℚ) (clock : Nat → Int) (e : Thrown),
      (∀ i j : Nat, i ≤ j → clock i ≤ clock j) →
      (executeWithRetry st m apiCall rand clock).out = .err e →
      (∀ m' : String, m' ≠ m → (executeWithRetry st m apiCall rand clock).st m' = st m') ∧
      (MODELS m = none → (executeWithRetry st m apiCall rand clock).st m = st m) ∧
      (∀ md : GeminiModel, MODELS m = some md →
        List.Perm (((executeWithRetry st m apiCall rand clock).st m).getD [])
          (prunedWindow st m (clock ((executeWithRetry st m apiCall rand clock).checks - 1))) ∧
        1 ≤ (executeWithRetry st m apiCall rand clock).checks) := by
  intro α st m apiCall rand clock e hmono hout
  refine ⟨?_, ?_, ?_⟩
  · intro m' hne
    exact executeWithRetryAux_st_other m apiCall rand clock _ _ _ _ hne
  · intro hm
    have hc : canMakeRequest st m (clock 0) = (false, st) := by
      simp [canMakeRequest, hm]
    simp [executeWithRetry, executeWithRetryAux, hc, getTimeUntilNextSlot, hm]
  · intro md hm
    have h := executeWithRetryAux_err_window hm apiCall rand clock hmono
      (RATE_LIMITS_MAX_RETRIES + 1) 0 st e (by norm_num)
      (by norm_num [RATE_LIMITS_MAX_RETRIES]) hout
    simpa [executeWithRetry] using h

/-- Witness for `executeWithRetry_failure_state`: a non-retriable failure with
one stale and one fresh timestamp leaves exactly the pruned window. -/
theorem executeWithRetry_failure_state_witness :
    List.Perm (((executeWithRetry (α := Nat) (RateState.empty.set FLASH_ID [10, 99999])
        FLASH_ID (fun _ => .error ⟨false, none⟩) (fun _ => 1 / 2)
        (fun _ => 100000)).st FLASH_ID).getD [])
      (prunedWindow (RateState.empty.set FLASH_ID [10, 99999]) FLASH_ID
        ((fun _ => (100000 : Int)) ((executeWithRetry (α := Nat)
          (RateState.empty.set FLASH_ID [10, 99999]) FLASH_ID
          (fun _ => .error ⟨false, none⟩) (fun _ => 1 / 2)
          (fun _ => 100000)).checks - 1))) :=
  ((executeWithRetry_failure_state Nat (RateState.empty.set FLASH_ID [10, 99999]) FLASH_ID
    (fun _ => .error ⟨false, none⟩) (fun _ => 1 / 2) (fun _ => 100000)
    (.api ⟨false, none⟩) (fun _ _ _ => le_refl _) (by decide)).2.2 flashModel (by decide)).1

/-! ## File handling (src/utils/file-handler.ts) -/

/-- `pat` is a leading run of `s` (used to embed `String.prototype.startsWith`). -/
def charsStart : List Char → List Char → Bool
  | [], _ => true
  | _ :: _, [] => false
  | a :: as, b :: bs => a == b && charsStart as bs

/-- `pat` occurs contiguously in `s` (used to embed `String.prototype.includes`). -/
def charsHave (pat : List Char) : List Char → Bool
  | [] => pat.isEmpty
  | c :: cs => charsStart pat (c :: cs) || charsHave pat cs

/-- JavaScript `s.startsWith(pat)`. -/
def jsStartsWith (s pat : String) : Bool := charsStart pat.toList s.toList

/-- JavaScript `s.includes(pat)`. -/
def jsIncludes (s pat : String) : Bool := charsHave pat.toList s.toList

/-- The characters of a POSIX path after its last `/`. -/
def afterLastSlash (cs : List Char) : List Char :=
  cs.foldl (fun acc c => if c = '/' then [] else acc ++ [c]) []

/-- Position of the last `.` in a character list. -/
def lastDotIdx : List Char → Option Nat
  | [] => none
  | c :: cs =>
    match lastDotIdx cs with
    | some i => some (i + 1)
    | none => if c = '.' then some 0 else none

/-- Node's `path.extname` for ordinary POSIX file names: the substring of the
basename from its last `.` to the end, or `""` when the basename has no dot or
only a leading dot (dotfiles). -/
def jsExtname (p : String) : String :=
  let base := afterLastSlash p.toList
  match lastDotIdx base with
  | none => ""
  | some 0 => ""
  | some i => String.mk (base.drop i)

/-- JavaScript `s.toLowerCase()` for ASCII strings, over the character list
(Lean's `String.toLower` does not reduce inside the kernel). -/
def jsToLower (s : String) : String := String.mk (s.toList.map Char.toLower)

/-- The `MIME_TYPES` record of src/utils/file-handler.ts (the `default` entry
is applied via `getD` below, as `MIME_TYPES[ext] || MIME_TYPES.default`). -/
def MIME_TYPES : List (String × String) :=
  [(".jpg", "image/jpeg"), (".jpeg", "image/jpeg"), (".png", "image/png"),
   (".gif", "image/gif"), (".webp", "image/webp"), (".svg", "image/svg+xml"),
   (".pdf", "application/pdf"), (".doc", "application/msword"),
   (".docx", "application/vnd.openxmlformats-officedocument.wordprocessingml.document"),
   (".txt", "text/plain"), (".md", "text/markdown"), (".csv", "text/csv"),
   (".json", "application/json"),
   (".js", "text/javascript"), (".ts", "text/typescript"), (".py", "text/x-python"),
   (".html", "text/html"), (".css", "text/css"), (".java", "text/x-java"),
   (".cpp", "text/x-c++"), (".c", "text/x-c"), (".cs", "text/x-csharp")]

/-- `getMimeType` of src/utils/file-handler.ts. -/
def getMimeType (filePath : String) : String :=
  let ext := jsToLower (jsExtname filePath)
  (MIME_TYPES.lookup ext).getD "application/octet-stream"

/-- `getFileTypeCategory` of src/utils/file-handler.ts.  Note the
`mimeType.includes('c')` clause: any text mime containing the letter `c`
(`text/csv`, `text/css`, `text/typescript`, ...) is categorised `code`. -/
def getFileTypeCategory (filePath : String) : String :=
  let mimeType := getMimeType filePath
  if jsStartsWith mimeType "image/" then "image"
  else if mimeType = "application/pdf" || jsIncludes mimeType "document" then "document"
  else if jsStartsWith mimeType "text/" then
    if jsIncludes mimeType "javascript" || jsIncludes mimeType "python" ||
        jsIncludes mimeType "java" || jsIncludes mimeType "c" then "code"
    else "text"
  else "binary"

/-! ## Model selector (src/utils/model-selector.ts) -/

/-- `MODELS.FLASH` of src/utils/model-selector.ts. -/
def MODELS_FLASH : String := "gemini-2.0-flash-001"

/-- `MODELS.FLASH_LITE` of src/utils/model-selector.ts. -/
def MODELS_FLASH_LITE : String := "gemini-2.0-flash-lite-001"

/-- `MODELS.FLASH_THINKING` of src/utils/model-selector.ts. -/
def MODELS_FLASH_THINKING : String := "gemini-2.0-flash-thinking-exp-01-21"

/-- The `TaskType` enumeration of src/interfaces/common.ts. -/
inductive TaskType where
  | GENERAL_SEARCH
  | RAPID_SEARCH
  | RAPID_PROCESSING
  | COMPLEX_REASONING
  | FILE_ANALYSIS
deriving DecidableEq, Repr

/-- `getModelForFile` of src/utils/model-selector.ts. -/
def getModelForFile (filePath : String) : String :=
  if filePath.isEmpty then MODELS_FLASH
  else
    let category := getFileTypeCategory filePath
    let extension := jsToLower (jsExtname filePath)
    if category = "image" then MODELS_FLASH
    else if category = "document" then MODELS_FLASH
    else if category = "code" then MODELS_FLASH_THINKING
    else if category = "text" then
      if [".csv", ".json", ".xml"].contains extension then MODELS_FLASH
      else MODELS_FLASH_LITE
    else MODELS_FLASH

/-- `getModelForTask` of src/utils/model-selector.ts (`RAPID_SEARCH` falls to
the default branch). -/
def getModelForTask : TaskType → String
  | .GENERAL_SEARCH => MODELS_FLASH
  | .COMPLEX_REASONING => MODELS_FLASH_THINKING
  | .RAPID_PROCESSING => MODELS_FLASH_LITE
  | .FILE_ANALYSIS => MODELS_FLASH
  | .RAPID_SEARCH => MODELS_FLASH

/-- `filePath?: string | string[]`. -/
inductive FileArg where
  | one (p : String)
  | many (ps : List String)
deriving DecidableEq, Repr

/-- `ModelSelectionOptions` of src/utils/model-selector.ts (absent fields are
`none` / `false`). -/
structure ModelSelectionOptions where
  modelId : Option String := none
  taskType : Option TaskType := none
  filePath : Option FileArg := none
  thinking : Bool := false
  searchRequired : Bool := false
  costEfficient : Bool := false
deriving DecidableEq, Repr

/-- JavaScript truthiness of an optional string (`undefined` and `""` falsy). -/
def strTruthy : Option String → Bool
  | none => false
  | some s => !s.isEmpty

/-- JavaScript truthiness of `filePath` (`undefined` and `""` falsy; any
array, even empty, truthy). -/
def fileArgTruthy : Option FileArg → Bool
  | none => false
  | some (.one p) => !p.isEmpty
  | some (.many _) => true

/-- `selectModel` of src/utils/model-selector.ts. -/
def selectModel (options : ModelSelectionOptions) : String :=
  if strTruthy options.modelId then (options.modelId.getD "")
  else if options.thinking then MODELS_FLASH_THINKING
  else if options.searchRequired then MODELS_FLASH
  else if options.costEfficient then MODELS_FLASH_LITE
  else if fileArgTruthy options.filePath then
    match options.filePath with
    | some (.many files) =>
      let needsFlash := files.any (fun file => getFileTypeCategory file == "image" ||
        getFileTypeCategory file == "document")
      let needsThinking := files.any (fun file => getFileTypeCategory file == "code")
      if needsThinking then MODELS_FLASH_THINKING
      else if needsFlash then MODELS_FLASH
      else MODELS_FLASH_LITE
    | some (.one f) => getModelForFile f
    | none => MODELS_FLASH
  else
    match options.taskType with
    | some t => getModelForTask t
    | none => MODELS_FLASH

/-- Demand order on the three selector outputs: cost-efficient Flash-Lite <
multimodal Flash < extended-reasoning Flash Thinking. -/
def modelRank (m : String) : Nat :=
  if m = MODELS_FLASH_THINKING then 3
  else if m = MODELS_FLASH then 2
  else if m = MODELS_FLASH_LITE then 1
  else 0

/-! ### Selector facts -/

theorem String.isEmpty_eq_empty {p : String} (hp : p.isEmpty = true) : p = "" := by
  cases p with
  | mk data =>
    cases data with
    | nil => rfl
    | cons a l =>
      simp [String.isEmpty, String.endPos, String.utf8ByteSize] at hp
      have h2 : String.utf8Len l + a.utf8Size = 0 := congrArg String.Pos.byteIdx hp
      have h3 := Char.utf8Size_pos a
      omega

theorem getFileTypeCategory_cases (p : String) :
    getFileTypeCategory p = "image" ∨ getFileTypeCategory p = "document" ∨
    getFileTypeCategory p = "code" ∨ getFileTypeCategory p = "text" ∨
    getFileTypeCategory p = "binary" := by
  simp only [getFileTypeCategory]
  split_ifs <;> simp

theorem getModelForFile_cases (p : String) :
    getModelForFile p = MODELS_FLASH ∨ getModelForFile p = MODELS_FLASH_LITE ∨
    getModelForFile p = MODELS_FLASH_THINKING := by
  simp only [getModelForFile]
  split_ifs <;> simp

theorem category_of_csv {p : String} (h : jsToLower (jsExtname p) = ".csv") :
    getFileTypeCategory p = "code" := by
  have hmime : getMimeType p = "text/csv" := by
    simp only [getMimeType, h]
    decide
  simp only [getFileTypeCategory, hmime]
  decide

theorem category_of_json {p : String} (h : jsToLower (jsExtname p) = ".json") :
    getFileTypeCategory p = "binary" := by
  have hmime : getMimeType p = "application/json" := by
    simp only [getMimeType, h]
    decide
  simp only [getFileTypeCategory, hmime]
  decide

theorem category_of_xml {p : String} (h : jsToLower (jsExtname p) = ".xml") :
    getFileTypeCategory p = "binary" := by
  have hmime : getMimeType p = "application/octet-stream" := by
    simp only [getMimeType, h]
    decide
  simp only [getFileTypeCategory, hmime]
  decide

theorem getModelForFile_of_image {p : String} (hc : getFileTypeCategory p = "image") :
    getModelForFile p = MODELS_FLASH := by
  unfold getModelForFile
  split_ifs <;> simp_all

theorem getModelForFile_of_document {p : String} (hc : getFileTypeCategory p = "document") :
    getModelForFile p = MODELS_FLASH := by
  unfold getModelForFile
  split_ifs <;> simp_all

theorem getModelForFile_of_code {p : String} (hc : getFileTypeCategory p = "code") :
    getModelForFile p = MODELS_FLASH_THINKING := by
  cases hp : p.isEmpty with
  | true =>
    rw [String.isEmpty_eq_empty hp] at hc
    exact absurd hc (by decide)
  | false =>
    simp only [getModelForFile, hp, Bool.false_eq_true, if_false, hc]
    simp

theorem getModelForFile_of_text {p : String} (hc : getFileTypeCategory p = "text") :
    getModelForFile p = MODELS_FLASH_LITE := by
  cases hp : p.isEmpty with
  | true =>
    rw [String.isEmpty_eq_empty hp] at hc
    exact absurd hc (by decide)
  | false =>
    have h1 : jsToLower (jsExtname p) ≠ ".csv" := by
      intro h
      rw [category_of_csv h] at hc
      exact absurd hc (by decide)
    have h2 : jsToLower (jsExtname p) ≠ ".json" := by
      intro h
      rw [category_of_json h] at hc
      exact absurd hc (by decide)
    have h3 : jsToLower (jsExtname p) ≠ ".xml" := by
      intro h
      rw [category_of_xml h] at hc
      exact absurd hc (by decide)
    have hb1 : (jsToLower (jsExtname p) == ".csv") = false := beq_eq_false_iff_ne.mpr h1
    have hb2 : (jsToLower (jsExtname p) == ".json") = false := beq_eq_false_iff_ne.mpr h2
    have hb3 : (jsToLower (jsExtname p) == ".xml") = false := beq_eq_false_iff_ne.mpr h3
    simp only [getModelForFile, hp, Bool.false_eq_true, if_false, hc]
    simp [List.contains, List.elem, hb1, hb2, hb3]

theorem selectModel_many_eq (files : List String) :
    selectModel { filePath := some (.many files) } =
      (if files.any (fun file => getFileTypeCategory file == "code") then
        MODELS_FLASH_THINKING
       else if files.any (fun file => getFileTypeCategory file == "image" ||
           getFileTypeCategory file == "document") then MODELS_FLASH
       else MODELS_FLASH_LITE) := by
  simp [selectModel, strTruthy, fileArgTruthy]

/-- **C7 counterexample.** Two binary-category files (`.json` maps to
`application/json`, which the category function calls `binary`): the batch
selects cost-efficient Flash-Lite, strictly less demanding than the Flash
chosen for the first file alone — the batch under-provisions. -/
theorem selectModel_batch_counterexample :
    selectModel { filePath := some (.many ["data.json", "notes.txt"]) } =
      MODELS_FLASH_LITE ∧
    selectModel { filePath := some (.one ("data.json")) } = MODELS_FLASH ∧
    modelRank MODELS_FLASH_LITE < modelRank MODELS_FLASH := by
  refine ⟨by decide, by decide, by decide⟩

/-- **C7 (amended).** For a multi-file request without override or flags the
selector returns the most demanding requirement computed from file-type
categories alone (code ⇒ extended-reasoning, image/document ⇒ multimodal
Flash, anything else ⇒ cost-efficient): it never under-provisions relative to
any file of category image, document, code or plain-text in the batch.
Binary-category files are not accounted (alone they select Flash, in a batch
they count as cost-efficient), so they are excluded — see the counterexample. -/
theorem selectModel_batch_spec :
    ∀ (files : List String) (f : String), f ∈ files →
      getFileTypeCategory f ≠ "binary" →
      modelRank (getModelForFile f) ≤
        modelRank (selectModel { filePath := some (.many files) }) := by
  intro files f hf hbin
  rw [selectModel_many_eq]
  rcases getFileTypeCategory_cases f with hc | hc | hc | hc | hc
  · rw [getModelForFile_of_image hc]
    by_cases hnt : (files.any fun file => getFileTypeCategory file == "code") = true
    · rw [if_pos hnt]
      decide
    · rw [if_neg hnt, if_pos (List.any_eq_true.mpr ⟨f, hf, by rw [hc]; decide⟩)]
  · rw [getModelForFile_of_document hc]
    by_cases hnt : (files.any fun file => getFileTypeCategory file == "code") = true
    · rw [if_pos hnt]
      decide
    · rw [if_neg hnt, if_pos (List.any_eq_true.mpr ⟨f, hf, by rw [hc]; decide⟩)]
  · rw [getModelForFile_of_code hc,
      if_pos (List.any_eq_true.mpr ⟨f, hf, by rw [hc]; decide⟩)]
  · rw [getModelForFile_of_text hc]
    by_cases hnt : (files.any fun file => getFileTypeCategory file == "code") = true
    · rw [if_pos hnt]
      decide
    · rw [if_neg hnt]
      by_cases hnf : (files.any fun file => getFileTypeCategory file == "image" ||
          getFileTypeCategory file == "document") = true
      · rw [if_pos hnf]
        decide
      · rw [if_neg hnf]
  · exact absurd hc hbin

/-- Witness for `selectModel_batch_spec`: an image file in an image + code
batch — the batch picks the thinking model, at least as demanding as the Flash
choice for the image alone. -/
theorem selectModel_batch_spec_witness :
    modelRank (getModelForFile ("pic.png")) ≤
      modelRank (selectModel { filePath := some (.many ["pic.png", "m.py"]) }) :=
  selectModel_batch_spec ["pic.png", "m.py"] "pic.png" (by decide) (by decide)

/-- **C8 (code evaluated at the failing input).** `'text/csv'` contains the
letter `c`, so `getFileTypeCategory` classifies `.csv` files as `code` and
`getModelForFile` returns the extended-reasoning model — the selector's own
structured-text branch (`.csv → Flash`) is unreachable.  The remaining rows of
the category table behave as documented. -/
theorem getModelForFile_csv_eval :
    getMimeType ("data.csv") = "text/csv" ∧
    getFileTypeCategory ("data.csv") = "code" ∧
    getModelForFile ("data.csv") = MODELS_FLASH_THINKING ∧
    selectModel { filePath := some (.one ("data.csv")) } = MODELS_FLASH_THINKING ∧
    getModelForFile ("pic.png") = MODELS_FLASH ∧
    getModelForFile ("doc.pdf") = MODELS_FLASH ∧
    getModelForFile ("prog.py") = MODELS_FLASH_THINKING ∧
    getModelForFile ("notes.txt") = MODELS_FLASH_LITE ∧
    getModelForFile ("blob.bin") = MODELS_FLASH := by
  refine ⟨by decide, by decide, by decide, by decide, by decide, by decide, by decide,
    by decide, by decide⟩

/-- **C10.** Without a (truthy) explicit override `selectModel` only ever
returns one of the three registry identifiers, so dispatch-time registry
lookup of a non-overridden selection cannot fail. -/
theorem selectModel_registry_closed :
    ∀ o : ModelSelectionOptions, (o.modelId = none ∨ o.modelId = some "") →
      (selectModel o = MODELS_FLASH ∨ selectModel o = MODELS_FLASH_LITE ∨
        selectModel o = MODELS_FLASH_THINKING) ∧
      (MODELS (selectModel o)).isSome = true := by
  intro o ho
  have hm : strTruthy o.modelId = false := by
    rcases ho with h | h <;> rw [h] <;> decide
  have hmain : selectModel o = MODELS_FLASH ∨ selectModel o = MODELS_FLASH_LITE ∨
      selectModel o = MODELS_FLASH_THINKING := by
    unfold selectModel
    rw [hm]
    simp only [Bool.false_eq_true, if_false]
    split_ifs
    · exact Or.inr (Or.inr rfl)
    · exact Or.inl rfl
    · exact Or.inr (Or.inl rfl)
    · cases hfp : o.filePath with
      | none => exact Or.inl rfl
      | some fa =>
        cases fa with
        | one f => exact getModelForFile_cases f
        | many files =>
          dsimp only
          split_ifs
          · exact Or.inr (Or.inr rfl)
          · exact Or.inl rfl
          · exact Or.inr (Or.inl rfl)
    · cases ht : o.taskType with
      | none => exact Or.inl rfl
      | some t =>
        cases t <;> dsimp only [getModelForTask] <;>
          first
          | exact Or.inl rfl
          | exact Or.inr (Or.inl rfl)
          | exact Or.inr (Or.inr rfl)
  refine ⟨hmain, ?_⟩
  rcases hmain with h | h | h <;> rw [h] <;> decide

/-- Witness for `selectModel_registry_closed` at the all-defaults request. -/
theorem selectModel_registry_closed_witness :
    (selectModel {} = MODELS_FLASH ∨ selectModel {} = MODELS_FLASH_LITE ∨
      selectModel {} = MODELS_FLASH_THINKING) ∧
    (MODELS (selectModel {})).isSome = true :=
  selectModel_registry_closed {} (Or.inl rfl)
